import Mathlib

/-!
Shallow embedding of the connection/session runtime of the
Case-Real-Time-Trading-Dashboard backend
(`backend/src/interfaces/advanced_trading_server.cpp` and the
infrastructure it uses), together with proofs settling the claims about
it.  Times are modelled as natural-number milliseconds, C++ `int64_t`
arithmetic as `Int` where signedness matters, and `double` payload
numbers as `Rat` (only carried through, never computed with).  External
collaborators (the risk validator interface, SHA-256, `std::hash`, the
msgpack unpacker) are parameters of the embedded functions.
-/

namespace Trading

/-! ## JSON values (nlohmann::json as used by the handlers) -/

inductive Json where
  | null
  | str (s : String)
  | num (q : Rat)
  | bool (b : Bool)
  | arr (elems : List Json)
  | obj (fields : List (String × Json))
deriving Repr

/-- Object member lookup (`find` / `operator[]` read). -/
def Json.find : Json → String → Option Json
  | .obj kvs, key => kvs.lookup key
  | _, _ => none

/-- `j.value(key, default)` for `std::string`: default when the key is
missing, the string when present; `none` models the `type_error` thrown
when the key holds a non-string or `j` is not an object. -/
def Json.valueStr : Json → String → String → Option String
  | .obj kvs, key, dflt =>
    match kvs.lookup key with
    | none => some dflt
    | some (.str s) => some s
    | some _ => none
  | _, _, _ => none

/-- `j.value(key, default)` for a numeric type: default when missing,
the number when present (nlohmann converts between numeric kinds);
`none` models the `type_error` on a non-number or a non-object `j`. -/
def Json.valueNum : Json → String → Rat → Option Rat
  | .obj kvs, key, dflt =>
    match kvs.lookup key with
    | none => some dflt
    | some (.num q) => some q
    | some _ => none
  | _, _, _ => none

/-- `createErrorResponse` (advanced_trading_server.cpp:2529). -/
def createErrorResponse (code message : String) : Json :=
  .obj [("error", .obj [("code", .str code), ("message", .str message)])]

/-- `haystack.find(needle) != std::string::npos` (substring search,
on the character lists so that concrete instances evaluate). -/
def containsSub (hay pat : String) : Bool :=
  hay.toList.tails.any (fun t => pat.toList.isPrefixOf t)

/-- `s.rfind(prefix, 0) == 0` / `key.find(prefix) == 0` (prefix test). -/
def startsWithModel (s pre : String) : Bool :=
  pre.toList.isPrefixOf s.toList

def decDigit? (c : Char) : Option Nat :=
  if '0' ≤ c ∧ c ≤ '9' then some (c.toNat - '0'.toNat) else none

/-- Value of the maximal decimal-digit prefix, `acc` already parsed. -/
def takeDigitsVal (acc : Nat) : List Char → Nat
  | [] => acc
  | c :: rest =>
    match decDigit? c with
    | some d => takeDigitsVal (acc * 10 + d) rest
    | none => acc

/-- Models `std::stoll` / `std::stoi`: optional sign, then the value of
the maximal decimal-digit prefix; `none` (the thrown exception) when no
digit leads.  Leading whitespace, which the C functions skip, never
occurs on the server's own `std::to_string` outputs. -/
def stollModel (s : String) : Option Int :=
  match s.toList with
  | '-' :: c :: rest => (decDigit? c).map (fun d => -(takeDigitsVal d rest : Int))
  | c :: rest => (decDigit? c).map (fun d => (takeDigitsVal d rest : Int))
  | [] => none

/-! ## Domain types (`domain/types.hpp`; the header itself is not in the
sources, its shape is fixed by `tests/test_domain_types.cpp`) -/

inductive OrderStatus where
  | NEW | ACK | REJECTED | FILLED | CANCELED
deriving DecidableEq, Repr

/-- Modelled from the spec: the integer code `static_cast<int>(status)`
of the enum in the missing `domain/types.hpp`; spec scenario 3 fixes
`ACK ↦ 1`, the rest follow the declaration order used by the tests. -/
def OrderStatus.code : OrderStatus → Nat
  | .NEW => 0 | .ACK => 1 | .REJECTED => 2 | .FILLED => 3 | .CANCELED => 4

inductive Side where | BUY | SELL
deriving DecidableEq, Repr

inductive OrderType where | MARKET | LIMIT
deriving DecidableEq, Repr

structure OrderResult where
  status : OrderStatus
  orderId : String
  echoKey : String
  reason : String
deriving DecidableEq, Repr

structure Order where
  orderId : String
  idempotencyKey : String
  type : OrderType
  side : Side
  qty : Rat
  price : Rat
deriving DecidableEq, Repr

structure Account where
  accountId : String
  owner : String
  currency : String
  balance : Rat
deriving DecidableEq, Repr

structure Position where
  symbol : String
  qty : Rat
  avgPrice : Rat
deriving DecidableEq, Repr

/-! ## Idempotency cache (`infrastructure/cache/idempotency_cache.{hpp,cpp}`) -/

structure CacheEntry where
  result : OrderResult
  expiresAt : Nat
deriving DecidableEq, Repr

/-- `CacheEntry::isExpired` (idempotency_cache.hpp): `now > expiresAt`. -/
def CacheEntry.isExpired (e : CacheEntry) (now : Nat) : Bool :=
  now > e.expiresAt

structure Cache where
  entries : List (String × CacheEntry)
deriving DecidableEq, Repr

/-- `IdempotencyCache::get`: miss on absent key; an expired entry is
erased and reported as a miss; otherwise the stored result.  Returns the
(possibly shrunk) cache alongside the lookup result. -/
def Cache.get (c : Cache) (now : Nat) (key : String) : Option OrderResult × Cache :=
  match c.entries.lookup key with
  | none => (none, c)
  | some e =>
    if e.isExpired now then
      (none, ⟨c.entries.eraseP (fun kv => kv.1 == key)⟩)
    else
      (some e.result, c)

/-- `IdempotencyCache::put`: unconditional overwrite,
`expiresAt = now + ttlMs` (default 300000). -/
def Cache.put (c : Cache) (now : Nat) (key : String) (result : OrderResult)
    (ttlMs : Nat) : Cache :=
  ⟨(key, ⟨result, now + ttlMs⟩) :: c.entries.eraseP (fun kv => kv.1 == key)⟩

/-! ## Session store

Modelled from the spec: the per-session typed key/value store of
binaryrpc's `SessionManager` (§4.2 of the spec; the library itself is
not part of this repository).  `setField(id, key, value,
persistAcrossReconnect)` overwrites value and flag; fields written with
`persistAcrossReconnect = false` are cleared when the session is resumed
from a disconnected state. -/

inductive SessVal where
  | str (s : String)
  | strList (l : List String)
deriving DecidableEq, Repr

structure SessField where
  value : SessVal
  persist : Bool
deriving DecidableEq, Repr

structure SessionStore where
  fields : List (String × SessField)
deriving DecidableEq, Repr

def SessionStore.setField (st : SessionStore) (key : String) (v : SessVal)
    (persist : Bool) : SessionStore :=
  ⟨(key, ⟨v, persist⟩) :: st.fields.eraseP (fun kv => kv.1 == key)⟩

def SessionStore.getField? (st : SessionStore) (key : String) : Option SessField :=
  st.fields.lookup key

/-- `getField<std::string>`: the value when the field holds a string. -/
def SessionStore.getStr (st : SessionStore) (key : String) : Option String :=
  match st.fields.lookup key with
  | some ⟨.str s, _⟩ => some s
  | _ => none

/-- Modelled from the spec: resuming a session from a disconnected state
clears every field stored with `persistAcrossReconnect = false`. -/
def SessionStore.resume (st : SessionStore) : SessionStore :=
  ⟨st.fields.filter (fun kv => kv.2.persist)⟩

/-! ## MsgPack payload parsing (`utils/parser.hpp`) -/

/-- A decoded `msgpack::object` (msgpack-c is an external library; only
the type tags inspected by `convertMsgPackToJson` are modelled). -/
inductive MsgVal where
  | str (s : String)
  | int (i : Int)
  | float (q : Rat)
  | bool (b : Bool)
  | arr (l : List MsgVal)
  | map (l : List (MsgVal × MsgVal))
  | nil
deriving Repr

/-- Insert-or-assign on an object member list (`map[key] = v`). -/
def objInsert (kvs : List (String × Json)) (k : String) (v : Json) :
    List (String × Json) :=
  (k, v) :: kvs.eraseP (fun kv => kv.1 == k)

/-- `convertMsgPackToJson` (parser.hpp): structural conversion; the
`default` case yields an empty object; `none` models the exception
thrown when a map key is not a string (`pair.key.convert(key)`). -/
def convertMsgPackToJson : MsgVal → Option Json
  | .str s => some (.str s)
  | .int i => some (.num (i : Rat))
  | .float q => some (.num q)
  | .bool b => some (.bool b)
  | .arr l => do
    let elems ← l.attach.mapM (fun x => convertMsgPackToJson x.1)
    pure (.arr elems)
  | .map l => do
    let kvs ← l.attach.mapM (fun p =>
      match h : p.1 with
      | (.str k, v) => (convertMsgPackToJson v).map (fun j => (k, j))
      | _ => none)
    pure (.obj (kvs.foldl (fun acc kv => objInsert acc kv.1 kv.2) []))
  | .nil => some (.obj [])
decreasing_by
  · rename_i l
    have hx := List.sizeOf_lt_of_mem x.2
    simp only [MsgVal.arr.sizeOf_spec]
    omega
  · rename_i l
    have hp := List.sizeOf_lt_of_mem p.2
    have hv := congrArg sizeOf h
    simp only [Prod.mk.sizeOf_spec, MsgVal.str.sizeOf_spec] at hv
    simp only [MsgVal.map.sizeOf_spec]
    omega

/-- `parseMsgPackPayload` (parser.hpp:124): unpack the bytes with the
external msgpack unpacker and convert; every exception (unpack failure
or conversion failure) is caught and yields the empty JSON object. -/
def parseMsgPackPayload (unpack : List Nat → Option MsgVal)
    (req : List Nat) : Json :=
  match unpack req with
  | none => .obj []
  | some o => (convertMsgPackToJson o).getD (.obj [])

/-! ## Server state and external collaborators -/

/-- The pieces of `AdvancedTradingServer` state a handler invocation
touches: the invoking session's field store and id, the idempotency
cache, the room registry, and the relevant counters (`validateCalls`
counts invocations of `RiskValidator::validate`). -/
structure ServerState where
  sessionId : String
  session : SessionStore
  cache : Cache
  rooms : List (String × List String)
  validateCalls : Nat
  totalOrdersPlaced : Nat
  totalErrors : Nat
deriving Repr

/-- The `IRiskValidator` collaborator (domain/interfaces.hpp): the
verdict of `validate` and the string `getValidationError()` reports
after a failed call. -/
structure RiskModel where
  validate : Account → List Position → Order → Bool
  errorOf : Account → List Position → Order → String

/-- `getSessionData` (advanced_trading_server.cpp:2546): a stub that
never consults the session store — `subscribedRooms` and every other
unlisted key yield `nullopt`, `userId` is hard-wired to `"demo-user"`,
`authenticated` to `"true"` (the session-manager access it guards on
succeeds in a running server). -/
def getSessionData (key : String) : Option String :=
  if key = "subscribedRooms" then none
  else if key = "userId" then some "demo-user"
  else if key = "authenticated" then some "true"
  else if startsWithModel key "rateLimit_" then none
  else none

/-- `getAccountForSession` (advanced_trading_server.cpp:2515). -/
def getAccountForSession : Account :=
  let userId := (getSessionData "userId").getD "demo-user"
  ⟨"ACC_" ++ userId, userId, "USD", (100000 : Rat)⟩

/-- `getPositionsForAccount` (advanced_trading_server.cpp:2523). -/
def getPositionsForAccount : List Position := []

/-! ## orders.place (`handleOrdersPlace`, advanced_trading_server.cpp:802) -/

/-- The payload fields read at lines 926–931, with their documented
defaults. -/
structure OrderFields where
  idempotencyKey : String
  symbol : String
  side : String
  type : String
  qty : Rat
  price : Rat
deriving DecidableEq, Repr

/-- The six `request.value(...)` reads (lines 926–931); `none` models a
thrown `type_error`, handled by the handler's outer catch. -/
def extractOrderFields (j : Json) : Option OrderFields := do
  let idempotencyKey ← j.valueStr "idempotencyKey" "DEFAULT_KEY"
  let symbol ← j.valueStr "symbol" "BTC-USD"
  let side ← j.valueStr "side" "BUY"
  let type ← j.valueStr "type" "LIMIT"
  let qty ← j.valueNum "qty" 1
  let price ← j.valueNum "price" 50000
  pure ⟨idempotencyKey, symbol, side, type, qty, price⟩

/-- The `Order` built at lines 998–1006. -/
def orderOf (f : OrderFields) (now : Nat) : Order :=
  { orderId := "ORD_" ++ toString now
    idempotencyKey := f.idempotencyKey
    type := if f.type = "MARKET" then .MARKET else .LIMIT
    side := if f.side = "BUY" then .BUY else .SELL
    qty := f.qty
    price := f.price }

/-- Which exit the handler took. -/
inductive PlaceBranch where
  | rateLimited | parseError | cached | rejected | placed
deriving DecidableEq, Repr

structure PlaceResult where
  state : ServerState
  reply : Json
  branch : PlaceBranch
deriving Repr

/-- The response object shared by the cached / rejected / placed paths
(lines 967–982, 1020–1035, 1145–1160): the outcome's four fields plus
the current request's order metadata. -/
def placeReplyJson (result : OrderResult) (qos sessionId : String)
    (f : OrderFields) : Json :=
  .obj [("status", .num result.status.code),
        ("orderId", .str result.orderId),
        ("echoKey", .str result.echoKey),
        ("reason", .str result.reason),
        ("qos", .str qos),
        ("sessionId", .str sessionId),
        ("symbol", .str f.symbol),
        ("side", .str f.side),
        ("type", .str f.type),
        ("price", .num f.price),
        ("quantity", .num f.qty),
        ("idempotencyKey", .str f.idempotencyKey)]

/-- The rate-limit test at lines 838–853: a parseable `lastOrderTime`
session field less than 1000 ms old (`int64_t` difference). -/
def rateLimitedAt (st : ServerState) (now : Nat) : Bool :=
  match st.session.getStr "lastOrderTime" with
  | some s =>
    match stollModel s with
    | some t => decide ((now : Int) - t < 1000)
    | none => false      -- invalid timestamp: continue
  | none => false

/-- The outcome computed (and cached) for a request that reaches the
risk validator (lines 1016–1049). -/
def placeOutcomeResult (rv : RiskModel) (f : OrderFields) (now : Nat) : OrderResult :=
  let order := orderOf f now
  if rv.validate getAccountForSession getPositionsForAccount order then
    ⟨if order.type = OrderType.MARKET then .FILLED else .ACK,
     order.orderId, f.idempotencyKey, ""⟩
  else
    ⟨.REJECTED, order.orderId, f.idempotencyKey,
     rv.errorOf getAccountForSession getPositionsForAccount order⟩

/-- `handleOrdersPlace` for one request arriving at `now` (ms).  The
embedding follows the source in a running server: the framework API is
available (so the debug `setField` block at lines 890–900 executes) and
the idempotency cache is initialized.  ClickHouse logging and alert
broadcasting touch no state the claims mention and are elided. -/
def handleOrdersPlace (rv : RiskModel) (st : ServerState) (now : Nat)
    (request : Json) : PlaceResult :=
  -- rate limiting via session field "lastOrderTime" (lines 828–857)
  if rateLimitedAt st now then
    { state := st
      reply := createErrorResponse "RATE_LIMIT_EXCEEDED" "Too many requests"
      branch := .rateLimited }
  else
    let sess := st.session.setField "lastOrderTime" (.str (toString now)) false
    -- debug setField block, lines 890–900 (note the persist=true userId write)
    let sess := sess.setField "userId" (.str "test-user") true
    let sess := sess.setField "userId2" (.str "test-user2") false
    let sess := sess.setField "rateLimit_orders.place" (.str (toString now)) false
    let st := { st with session := sess }
    match extractOrderFields request with
    | none =>
      -- a type_error from request.value(...) reaches the outer catch
      -- (lines 1172–1182): totalErrors++, INTERNAL_ERROR reply
      { state := { st with totalErrors := st.totalErrors + 1 }
        reply := createErrorResponse "INTERNAL_ERROR" "Order placement failed"
        branch := .parseError }
    | some f =>
      let (cached?, cache') := st.cache.get now f.idempotencyKey
      let st := { st with cache := cache' }
      match cached? with
      | some result =>
        { state := st
          reply := placeReplyJson result "AtLeastOnce - cached result" st.sessionId f
          branch := .cached }
      | none =>
        let order := orderOf f now
        let account := getAccountForSession
        let positions := getPositionsForAccount
        if rv.validate account positions order then
          let status := if order.type = OrderType.MARKET
                        then OrderStatus.FILLED else OrderStatus.ACK
          let result : OrderResult := ⟨status, order.orderId, f.idempotencyKey, ""⟩
          let sess := st.session.setField "lastOrderId" (.str order.orderId) false
          let sess := sess.setField "lastOrderStatus" (.str (toString status.code)) false
          { state := { st with
              cache := st.cache.put now f.idempotencyKey result 300000
              session := sess
              validateCalls := st.validateCalls + 1
              totalOrdersPlaced := st.totalOrdersPlaced + 1 }
            reply := placeReplyJson result "AtLeastOnce - reliable delivery" st.sessionId f
            branch := .placed }
        else
          let result : OrderResult :=
            ⟨.REJECTED, order.orderId, f.idempotencyKey, rv.errorOf account positions order⟩
          { state := { st with
              cache := st.cache.put now f.idempotencyKey result 300000
              validateCalls := st.validateCalls + 1 }
            reply := placeReplyJson result "AtLeastOnce - risk rejected" st.sessionId f
            branch := .rejected }

/-- A sequence of `orders.place` requests, each with its arrival time:
the final state and every (reply, branch) pair. -/
def runPlace (rv : RiskModel) (st : ServerState) :
    List (Nat × Json) → ServerState × List (Json × PlaceBranch)
  | [] => (st, [])
  | (t, req) :: rest =>
    ((runPlace rv (handleOrdersPlace rv st t req).state rest).1,
     ((handleOrdersPlace rv st t req).reply,
      (handleOrdersPlace rv st t req).branch)
       :: (runPlace rv (handleOrdersPlace rv st t req).state rest).2)

/-! ## hello (`handleHello`, advanced_trading_server.cpp:626) -/

/-- Token → (userId, roles) resolution of `handleHello`
(lines 665–681; note the order: admin, trader, viewer, demo). -/
def resolveHelloUser (token : String) : String × List String :=
  if containsSub token "admin" then
    ("admin-user-789", ["admin", "trader", "viewer"])
  else if containsSub token "trader" then
    ("trader-user-123", ["trader", "viewer"])
  else if containsSub token "viewer" then
    ("viewer-user-456", ["viewer"])
  else if containsSub token "demo" then
    ("demo-user-001", ["viewer"])
  else
    ("authenticated-user-" ++ ⟨token.toList.take 8⟩, ["viewer"])

structure HelloResult where
  session : SessionStore
  reply : Json
  ok : Bool
deriving Repr

/-- `handleHello` on an already-parsed request.  The `roles` field is
stored in the source as the JSON-serialized text of the array; the
embedding stores the list itself (only presence and the persist flag
are ever proved about).  All five `setField` calls pass
`persistAcrossReconnect = false` (lines 692–697). -/
def handleHello (sess : SessionStore) (sessionId : String)
    (request : Json) : HelloResult :=
  match request.valueStr "token" "", request.valueStr "clientId" "",
        request.valueStr "deviceId" "" with
  | some token, some clientId, some deviceId =>
    if token = "" || clientId = "" then
      { session := sess
        reply := createErrorResponse "INVALID_PARAMS"
          "Missing required parameters: token, clientId"
        ok := false }
    else
      let (userId, roles) := resolveHelloUser token
      let sess := sess.setField "userId" (.str userId) false
      let sess := sess.setField "clientId" (.str clientId) false
      let sess := sess.setField "deviceId" (.str deviceId) false
      let sess := sess.setField "roles" (.strList roles) false
      let sess := sess.setField "authenticated" (.str "true") false
      { session := sess
        reply := .obj [("sessionId", .str sessionId),
                       ("userId", .str userId),
                       ("roles", .arr (roles.map .str)),
                       ("message", .str "Welcome to Advanced Bull Trading Server!")]
        ok := true }
  | _, _, _ =>
    -- a type_error reaches the outer catch: INTERNAL_ERROR reply
    { session := sess
      reply := createErrorResponse "INTERNAL_ERROR" "Authentication failed"
      ok := false }

/-! ## market.subscribe (`handleMarketDataSubscribe`,
advanced_trading_server.cpp:1377) -/

/-- `getMarketDataRoom` (line 2600). -/
def getMarketDataRoom (symbol : String) : String :=
  "market:" ++ symbol

/-- The hard-coded symbol set of the fallback cleanup (line 1434). -/
def knownSymbols : List String :=
  ["BTC-USD", "ETH-USD", "ADA-USD", "SOL-USD",
   "DOGE-USD", "AVAX-USD", "MATIC-USD", "LINK-USD"]

def leaveRoom (rooms : List (String × List String)) (room sid : String) :
    List (String × List String) :=
  rooms.map (fun r => if r.1 = room then (r.1, r.2.erase sid) else r)

def joinRoom (rooms : List (String × List String)) (room sid : String) :
    List (String × List String) :=
  if rooms.any (fun r => r.1 == room) then
    rooms.map (fun r => if r.1 = room then (r.1, r.2 ++ [sid]) else r)
  else
    rooms ++ [(room, [sid])]

/-- `j.empty()` of nlohmann: true for empty containers and null. -/
def Json.isEmptyC : Json → Bool
  | .arr [] => true
  | .obj [] => true
  | .null => true
  | _ => false

/-- The symbols a `for (const auto& symbol : symbols)` loop visits:
array elements, or the value itself when it is a primitive. -/
def Json.iterElems : Json → List Json
  | .arr l => l
  | .obj l => l.map (·.2)
  | j => [j]

structure SubscribeResult where
  session : SessionStore
  rooms : List (String × List String)
  reply : Json
  ok : Bool
deriving Repr

/-- `handleMarketDataSubscribe` on an already-parsed payload.  Because
`getSessionData "subscribedRooms"` is a stub returning `nullopt`, the
fallback always leaves (and records) all eight known market rooms.  The
`subscribedRooms` field is written with `persistAcrossReconnect = false`
(line 1485). -/
def handleMarketDataSubscribe (sess : SessionStore)
    (rooms : List (String × List String)) (sessionId : String)
    (payload : Json) : SubscribeResult :=
  let symbols := (payload.find "symbols").getD (.arr [])
  if symbols.isEmptyC then
    { session := sess, rooms := rooms
      reply := createErrorResponse "INVALID_PARAMS" "Symbols list is required"
      ok := false }
  else
    let existingRooms := knownSymbols.map getMarketDataRoom
    -- the fallback leaves each known room while collecting it
    -- (lines 1437–1443) and then leaves every collected room again
    -- in the cleanup loop (lines 1447–1454)
    let rooms := existingRooms.foldl (fun r room => leaveRoom r room sessionId) rooms
    let rooms := existingRooms.foldl (fun r room => leaveRoom r room sessionId) rooms
    let subscribedRooms :=
      (symbols.iterElems.filterMap (fun j =>
        match j with
        | .str s => some (getMarketDataRoom s)
        | _ => none))
    let rooms := subscribedRooms.foldl (fun r room => joinRoom r room sessionId) rooms
    let sess := sess.setField "subscribedRooms" (.strList subscribedRooms) false
    { session := sess, rooms := rooms
      reply := .obj [("subscribed", symbols),
                     ("rooms", .arr (subscribedRooms.map .str)),
                     ("leftRooms", .arr (existingRooms.map .str)),
                     ("message", .str "Successfully subscribed to market data - cleaned up existing rooms and joined new ones")]
      ok := true }

/-! ## orders.status (`handleOrdersStatus`, advanced_trading_server.cpp:1288) -/

/-- `handleOrdersStatus`: reads `lastOrderId` / `lastOrderStatus`
through the `getSessionData` stub, so the session store argument is
never consulted. -/
def handleOrdersStatus (_sess : SessionStore) : Json :=
  .obj [("lastOrderId", .str ((getSessionData "lastOrderId").getD "none")),
        ("lastOrderStatus", .str ((getSessionData "lastOrderStatus").getD "none")),
        ("message", .str "Order status retrieved from session state")]

/-! ## history.query (`handleHistoryQuery`, advanced_trading_server.cpp:1603) -/

/-- Truncation toward zero, `static_cast<int64_t>(double)`. -/
def ratTrunc (q : Rat) : Int :=
  q.num.tdiv q.den

/-- The `fromTs` / `toTs` reads (lines 1611–1625): the number when the
member is numeric, else 0 (a missing member is inserted as null by
`operator[]` and is not a number). -/
def Json.tsField (j : Json) (key : String) : Int :=
  match j.find key with
  | some (.num q) => ratTrunc q
  | _ => 0

/-- What the validation prefix of `handleHistoryQuery` decides. -/
inductive HistoryOutcome where
  | invalidParams (reply : Json)
  | fetch (symbol : String) (fromTs toTs : Int) (interval : String) (limit : Int)
deriving Repr

/-- Lines 1629–1639: both timestamps are divided by 1000 (C++ `int64_t`
division truncates toward zero) *before* the zero test. -/
def historyCheckCore (symbol : String) (fromTsMs toTsMs : Int)
    (interval : String) (limit : Int) : HistoryOutcome :=
  let fromTs := fromTsMs.tdiv 1000
  let toTs := toTsMs.tdiv 1000
  if symbol = "" || fromTs = 0 || toTs = 0 then
    .invalidParams (createErrorResponse "INVALID_PARAMS"
      "Missing required parameters: symbol, fromTs, toTs")
  else
    .fetch symbol fromTs toTs interval limit

/-- The validation prefix of `handleHistoryQuery` on a parsed request;
`none` models a `type_error` from `request.value(...)` reaching the
outer catch. -/
def handleHistoryQueryCheck (request : Json) : Option HistoryOutcome := do
  let symbol ← request.valueStr "symbol" ""
  let fromTsMs := request.tsField "fromTs"
  let toTsMs := request.tsField "toTs"
  let interval ← request.valueStr "interval" "M1"
  let limit ← request.valueNum "limit" 1000
  pure (historyCheckCore symbol fromTsMs toTsMs interval (ratTrunc limit))

/-- The rejection predicate in the words of the claim: symbol empty or
`fromTs` or `toTs` zero (milliseconds, as sent by the client). -/
def specHistoryRejects (symbol : String) (fromTsMs toTsMs : Int) : Bool :=
  symbol = "" || fromTsMs = 0 || toTsMs = 0

/-! ## Middleware chain and dispatch (`setupMiddleware`,
advanced_trading_server.cpp:475; `setupHandlers`, line 529) -/

/-- The method list passed to `useForMulti` (lines 492–496). -/
def protectedMethods : List String :=
  ["orders.place", "orders.cancel", "orders.status",
   "history.query", "history.latest",
   "market.subscribe", "market.unsubscribe", "market.list",
   "metrics.get", "alerts.subscribe", "alerts.list", "alerts.register",
   "alerts.disable"]

/-- Every method registered by `setupHandlers` (lines 534–605). -/
def registeredMethods : List String :=
  ["hello", "logout",
   "orders.place", "orders.cancel", "orders.status", "orders.history",
   "market.subscribe", "market.unsubscribe", "market.list",
   "history.query", "history.latest",
   "metrics.get", "alerts.subscribe", "alerts.list", "alerts.register",
   "alerts.disable"]

/-- The authentication middleware body (lines 497–524): `next()` is
called exactly when the session field `authenticated` is present and
equal to `"true"` (the catch-all that allows on an exception is
unreachable in the pure model). -/
def authGatePasses (sess : SessionStore) : Bool :=
  match sess.getStr "authenticated" with
  | some v => v = "true"
  | none => false

structure DispatchOutcome where
  handlerRan : Bool
  replySent : Bool
deriving DecidableEq, Repr

/-- Modelled from the spec: binaryrpc's dispatcher runs the middleware
chain before the registered handler; a middleware that returns without
calling `next` halts dispatch, no handler runs and no automatic error
frame is sent.  The logging middleware (lines 479–489) always calls
`next`; when a handler runs it always replies. -/
def dispatch (sess : SessionStore) (method : String) : DispatchOutcome :=
  if method ∈ registeredMethods then
    if method ∈ protectedMethods then
      if authGatePasses sess then ⟨true, true⟩ else ⟨false, false⟩
    else ⟨true, true⟩
  else ⟨false, false⟩

/-- The protected set in the words of the claim:
`orders.*`, `history.*`, `market.*`, `metrics.get`, `alerts.*`. -/
def specProtected (method : String) : Bool :=
  startsWithModel method "orders." || startsWithModel method "history." ||
  startsWithModel method "market." || method = "metrics.get" ||
  startsWithModel method "alerts."

/-! ## Handshake inspector (`TradingHandshakeInspector`,
advanced_trading_server.cpp:63) -/

/-- `verifyJwtToken` of the inspector (lines 83–102; note the order:
trader, viewer, admin, demo). -/
def verifyJwtToken (token : String) : String :=
  if token = "" then ""
  else if containsSub token "trader" then "trader-user-123"
  else if containsSub token "viewer" then "viewer-user-456"
  else if containsSub token "admin" then "admin-user-789"
  else if containsSub token "demo" then "demo-user-001"
  else "authenticated-user-" ++ ⟨token.toList.take 8⟩

def hexDigitVal (c : Char) : Option Nat :=
  if '0' ≤ c ∧ c ≤ '9' then some (c.toNat - '0'.toNat)
  else if 'a' ≤ c ∧ c ≤ 'f' then some (c.toNat - 'a'.toNat + 10)
  else if 'A' ≤ c ∧ c ≤ 'F' then some (c.toNat - 'A'.toNat + 10)
  else none

/-- The whitespace characters `std::stoi` (via `isspace`) skips. -/
def isSpaceChar (c : Char) : Bool :=
  c = ' ' ∨ c = '\t' ∨ c = '\n' ∨ c = '\x0b' ∨ c = '\x0c' ∨ c = '\r'

/-- `std::stoi(byteString, nullptr, 16)` on a two-character chunk:
leading whitespace is skipped and an optional sign accepted, then the
value of the maximal hex-digit prefix (negated after `-`); throws
(`none`) when no digit is parsed.  Wide enough for every 2-character
string: overflow is impossible. -/
def stoiHexPair (c1 c2 : Char) : Option Int :=
  match hexDigitVal c1 with
  | some v1 =>
    match hexDigitVal c2 with
    | some v2 => some (16 * v1 + v2)
    | none => some v1
  | none =>
    if c1 = '-' then (hexDigitVal c2).map (fun v => -(v : Int))
    else if c1 = '+' then (hexDigitVal c2).map (fun v => (v : Int))
    else if isSpaceChar c1 then (hexDigitVal c2).map (fun v => (v : Int))
    else none

/-- The hex-parsing loop at lines 245–249: `substr(i, 2)` chunks; each
`std::stoi` result goes through `static_cast<char>` and is later read
back as `std::uint8_t` (lines 247–254), i.e. taken modulo 256. -/
def parseHexPairs : List Char → Option (List Nat)
  | [] => some []
  | [c] => (hexDigitVal c).map (fun v => [v])
  | c1 :: c2 :: rest => do
    let v ← stoiHexPair c1 c2
    let r ← parseHexPairs rest
    pure ((v.emod 256).toNat :: r)

/-- The identity the inspector produces (`binaryrpc::ClientIdentity`). -/
structure Identity where
  clientId : String
  deviceId : Int
  sessionToken : List Nat
deriving DecidableEq, Repr

/-- The decoded query parameters and the `x-device-id` header of a
connection request; an absent parameter is the empty string, exactly as
in the accumulation loop at lines 139–181. -/
structure ConnParams where
  clientId : String
  deviceId : String
  token : String
  sessionToken : String
  deviceHeader : String
deriving DecidableEq, Repr

/-- `generateSessionToken` (lines 104–128): first 16 bytes of SHA-256
over `userId:deviceId:nowMillis:jwtSecret`.  `sha256` is the OpenSSL
primitive, passed as an oracle. -/
def generateSessionToken (sha256 : String → List Nat)
    (jwtSecret userId deviceId : String) (nowMs : Nat) : List Nat :=
  (sha256 (userId ++ ":" ++ deviceId ++ ":" ++ toString nowMs ++ ":" ++ jwtSecret)).take 16

/-- `std::stoi` on the deviceId parameter (same model as `stollModel`). -/
def stoiModel (s : String) : Option Int :=
  stollModel s

/-- The userId after token verification (lines 139–198): the query's
`clientId`, overridden by the verified token identity when `token` is
non-empty and verification yields a non-empty user. -/
def resolvedUserId (p : ConnParams) : String :=
  if p.token ≠ "" then
    let verified := verifyJwtToken p.token
    if verified ≠ "" then verified else p.clientId
  else p.clientId

/-- The deviceId string after the header fallback (lines 200–206, only
when no userId was found) and the default (lines 214–217). -/
def resolvedDeviceStr (p : ConnParams) : String :=
  let deviceId :=
    if resolvedUserId p = "" ∧ p.deviceHeader ≠ "" then p.deviceHeader
    else p.deviceId
  if deviceId = "" then "trading-device-" ++ resolvedUserId p else deviceId

/-- The numeric deviceId (lines 219–227): `std::stoi`, or
`std::hash<std::string> % 1000000` when that throws. -/
def resolvedDeviceInt (hasher : String → Nat) (p : ConnParams) : Int :=
  match stoiModel (resolvedDeviceStr p) with
  | some n => n
  | none => ((hasher (resolvedDeviceStr p)) % 1000000 : Nat)

/-- `TradingHandshakeInspector::extract` (lines 133–270) after query
decoding.  `hasher` is `std::hash<std::string>`, `sha256` the OpenSSL
SHA-256, both external.  `none` is rejection: either no resolvable
userId, or an exception (in particular `std::stoi` throwing inside the
32-character session-token hex loop) reaching the outer catch. -/
def extractIdentity (sha256 : String → List Nat) (hasher : String → Nat)
    (jwtSecret : String) (nowMs : Nat) (p : ConnParams) : Option Identity :=
  if resolvedUserId p = "" then none
  else if p.sessionToken = "" ∨ p.sessionToken.length ≠ 32 then
    some ⟨resolvedUserId p, resolvedDeviceInt hasher p,
          generateSessionToken sha256 jwtSecret (resolvedUserId p)
            (resolvedDeviceStr p) nowMs⟩
  else
    match parseHexPairs p.sessionToken.toList with
    | some bytes => some ⟨resolvedUserId p, resolvedDeviceInt hasher p,
        bytes.take 16⟩
    | none => none

/-! ## QoS1 retry engine

Modelled from the spec: the retransmission state machine of binaryrpc's
QoS1 engine (§4.4; the library is not part of this repository), with
the configuration the server installs in `initialize`
(advanced_trading_server.cpp:285–297). -/

def baseRetryMs : Nat := 100
def maxBackoffMs : Nat := 2000
def maxAttempts : Nat := 5

/-- `backoff(n) = min(baseRetryMs · (n+1), maxBackoffMs)`. -/
def backoff (n : Nat) : Nat :=
  min (baseRetryMs * (n + 1)) maxBackoffMs

/-- The claim's window: `Σ_{i=0..maxAttempts-1} backoff(i)`. -/
def backoffWindow : Nat :=
  ((List.range maxAttempts).map backoff).sum

inductive QosResolution where
  | acked (at_ : Nat)
  | discarded (at_ : Nat)
deriving DecidableEq, Repr

structure QosOutcome where
  res : QosResolution
  retransmits : List Nat
  failCounterIncrements : Nat
  framesSentToClientOnFailure : Nat
deriving DecidableEq, Repr

/-- One pending DATA frame enqueued at time `t` with an ACK arriving at
`ackAt` (`none` = never): the entry waits for `nextRetryAt`; an ACK by
then removes it, otherwise the retransmission counter grows, and when it
would reach `maxAttempts` the entry is discarded, the delivery-failed
counter is incremented and nothing is sent to the client. -/
def qosRunFrom (ackAt : Option Nat) :
    Nat → Nat → Nat → QosOutcome
  | fuel, attempts, nextRetryAt =>
    match fuel with
    | 0 => ⟨.discarded nextRetryAt, [], 1, 0⟩
    | fuel + 1 =>
      let ackedNow :=
        match ackAt with
        | some a => decide (a ≤ nextRetryAt)
        | none => false
      if ackedNow then
        ⟨.acked (ackAt.getD 0), [], 0, 0⟩
      else if attempts + 1 ≥ maxAttempts then
        ⟨.discarded nextRetryAt, [], 1, 0⟩
      else
        let next := qosRunFrom ackAt fuel (attempts + 1)
          (nextRetryAt + backoff (attempts + 1))
        { next with retransmits := nextRetryAt :: next.retransmits }

/-- The life of a pending entry enqueued at `t`
(`attempts = 0`, `nextRetryAt = t + baseRetryMs`). -/
def qosRun (t : Nat) (ackAt : Option Nat) : QosOutcome :=
  qosRunFrom ackAt maxAttempts 0 (t + baseRetryMs)

/-! ## Concrete instances used by witnesses -/

/-- A risk validator that accepts everything. -/
def rvAccept : RiskModel := ⟨fun _ _ _ => true, fun _ _ _ => ""⟩

/-- A risk validator that rejects everything with a fixed error. -/
def rvReject : RiskModel := ⟨fun _ _ _ => false, fun _ _ _ => "Insufficient balance"⟩

/-- A freshly created session's server-side state. -/
def initialState : ServerState := ⟨"sess-1", ⟨[]⟩, ⟨[]⟩, [], 0, 0, 0⟩

/-! ## Helper lemmas on the association-list containers -/

theorem lookup_eraseKey_ne {β : Type} (l : List (String × β)) (k k' : String)
    (h : k' ≠ k) :
    (l.eraseP (fun kv => kv.1 == k)).lookup k' = l.lookup k' := by
  induction l with
  | nil => rfl
  | cons a tl ih =>
    by_cases hak : a.1 = k
    · rw [List.eraseP_cons_of_pos (by simp [hak])]
      have hne : (k' == a.1) = false := by
        simp [show k' ≠ a.1 from fun he => h (he.trans hak)]
      simp [List.lookup, hne]
    · rw [List.eraseP_cons_of_neg (by simp [hak])]
      by_cases hk'a : k' = a.1
      · simp [List.lookup, hk'a]
      · simp [List.lookup, show (k' == a.1) = false by simp [hk'a], ih]

theorem lookup_eq_none_of_not_mem {β : Type} (l : List (String × β)) (k : String)
    (hmem0 : k ∉ l.map Prod.fst) : l.lookup k = none := by
  induction l with
  | nil => rfl
  | cons a tl ih =>
    simp only [List.map_cons, List.mem_cons] at hmem0
    push_neg at hmem0
    simp [List.lookup, show (k == a.1) = false by simp [hmem0.1], ih hmem0.2]

theorem getStr_setField_self (st : SessionStore) (k s : String) (p : Bool) :
    (st.setField k (.str s) p).getStr k = some s := by
  simp [SessionStore.setField, SessionStore.getStr, List.lookup]

theorem getStr_setField_ne (st : SessionStore) (k k' : String) (v : SessVal)
    (p : Bool) (h : k' ≠ k) :
    (st.setField k v p).getStr k' = st.getStr k' := by
  simp [SessionStore.setField, SessionStore.getStr, List.lookup,
    show (k' == k) = false by simp [h], lookup_eraseKey_ne _ _ _ h]

theorem getField?_setField_self (st : SessionStore) (k : String) (v : SessVal)
    (p : Bool) :
    (st.setField k v p).getField? k = some ⟨v, p⟩ := by
  simp [SessionStore.setField, SessionStore.getField?, List.lookup]

theorem getField?_setField_ne (st : SessionStore) (k k' : String) (v : SessVal)
    (p : Bool) (h : k' ≠ k) :
    (st.setField k v p).getField? k' = st.getField? k' := by
  simp [SessionStore.setField, SessionStore.getField?, List.lookup,
    show (k' == k) = false by simp [h], lookup_eraseKey_ne _ _ _ h]

/-- Key uniqueness: holds for every store the server builds. -/
def SessionStore.wf (st : SessionStore) : Prop :=
  (st.fields.map Prod.fst).Nodup

theorem wf_empty : SessionStore.wf ⟨[]⟩ := by
  simp [SessionStore.wf]

theorem keys_eraseP_sublist {β : Type} (l : List (String × β)) (k : String) :
    ((l.eraseP (fun kv => kv.1 == k)).map Prod.fst).Sublist (l.map Prod.fst) :=
  (List.eraseP_sublist l).map Prod.fst

theorem not_mem_keys_eraseP {β : Type} (l : List (String × β)) (k : String)
    (hnd : (l.map Prod.fst).Nodup) :
    k ∉ (l.eraseP (fun kv => kv.1 == k)).map Prod.fst := by
  induction l with
  | nil => simp
  | cons a tl ih =>
    simp only [List.map_cons, List.nodup_cons] at hnd
    by_cases hak : a.1 = k
    · rw [List.eraseP_cons_of_pos (by simp [hak])]
      rw [← hak]
      exact hnd.1
    · rw [List.eraseP_cons_of_neg (by simp [hak])]
      simp only [List.map_cons, List.mem_cons, not_or]
      exact ⟨fun hk => hak hk.symm, ih hnd.2⟩

theorem wf_setField (st : SessionStore) (k : String) (v : SessVal) (p : Bool)
    (h : st.wf) : (st.setField k v p).wf := by
  simp only [SessionStore.wf, SessionStore.setField, List.map_cons,
    List.nodup_cons]
  exact ⟨not_mem_keys_eraseP _ _ h,
    ((keys_eraseP_sublist st.fields k).nodup h)⟩

theorem lookup_filter_persist (l : List (String × SessField)) (k : String)
    (hnd : (l.map Prod.fst).Nodup) :
    (l.filter (fun kv => kv.2.persist)).lookup k =
      (l.lookup k).bind (fun f => if f.persist then some f else none) := by
  induction l with
  | nil => rfl
  | cons a tl ih =>
    simp only [List.map_cons, List.nodup_cons] at hnd
    by_cases hp : a.2.persist
    · by_cases hka : k = a.1
      · simp [List.filter_cons, hp, List.lookup, hka]
      · simp [List.filter_cons, hp, List.lookup,
          show (k == a.1) = false by simp [hka], ih hnd.2]
    · by_cases hka : k = a.1
      · have hfil : (tl.filter (fun kv => kv.2.persist)).lookup k = none := by
          apply lookup_eq_none_of_not_mem
          intro hmem
          exact (hka ▸ hnd.1)
            (List.map_subset Prod.fst (List.filter_sublist tl).subset hmem)
        simp only [List.filter_cons, hp, Bool.false_eq_true, if_false, hfil]
        simp [List.lookup, hka, hp]
      · simp only [List.filter_cons, hp, Bool.false_eq_true, if_false, ih hnd.2]
        simp [List.lookup, show (k == a.1) = false by simp [hka]]

theorem resume_getField?_of_ephemeral (st : SessionStore) (k : String)
    (hwf : st.wf) (f : SessField) (hget : st.getField? k = some f)
    (hp : f.persist = false) :
    st.resume.getField? k = none := by
  simp only [SessionStore.resume, SessionStore.getField?] at *
  rw [lookup_filter_persist _ _ hwf, hget]
  simp [hp]

theorem resume_getField?_none (st : SessionStore) (k : String)
    (hwf : st.wf) (hget : st.getField? k = none) :
    st.resume.getField? k = none := by
  simp only [SessionStore.resume, SessionStore.getField?] at *
  rw [lookup_filter_persist _ _ hwf, hget]
  rfl

/-! ## Helper lemmas on `handleOrdersPlace` -/

/-- The four fields the round-trip law compares. -/
def replyCore (j : Json) : Option Json × Option Json × Option Json × Option Json :=
  (j.find "status", j.find "orderId", j.find "echoKey", j.find "reason")

def resultCore (r : OrderResult) :
    Option Json × Option Json × Option Json × Option Json :=
  (some (.num r.status.code), some (.str r.orderId),
   some (.str r.echoKey), some (.str r.reason))

theorem replyCore_placeReplyJson (r : OrderResult) (qos sid : String)
    (f : OrderFields) :
    replyCore (placeReplyJson r qos sid f) = resultCore r := rfl

theorem handleOrdersPlace_limited (rv : RiskModel) (st : ServerState)
    (now : Nat) (req : Json) (h : rateLimitedAt st now = true) :
    handleOrdersPlace rv st now req =
      ⟨st, createErrorResponse "RATE_LIMIT_EXCEEDED" "Too many requests",
       .rateLimited⟩ := by
  simp [handleOrdersPlace, h]

theorem not_rateLimited_of_branch (rv : RiskModel) (st : ServerState)
    (now : Nat) (req : Json)
    (h : (handleOrdersPlace rv st now req).branch ≠ .rateLimited) :
    rateLimitedAt st now = false := by
  by_contra hc
  rw [Bool.not_eq_false] at hc
  exact h (by rw [handleOrdersPlace_limited rv st now req hc])

theorem handleOrdersPlace_hit (rv : RiskModel) (st : ServerState) (now : Nat)
    (req : Json) (f : OrderFields) (r : OrderResult) (c2 : Cache)
    (hrl : rateLimitedAt st now = false)
    (hx : extractOrderFields req = some f)
    (hc : st.cache.get now f.idempotencyKey = (some r, c2)) :
    (handleOrdersPlace rv st now req).branch = .cached ∧
    (handleOrdersPlace rv st now req).reply =
      placeReplyJson r "AtLeastOnce - cached result" st.sessionId f ∧
    (handleOrdersPlace rv st now req).state.cache = c2 ∧
    (handleOrdersPlace rv st now req).state.validateCalls = st.validateCalls ∧
    (handleOrdersPlace rv st now req).state.sessionId = st.sessionId := by
  simp [handleOrdersPlace, hrl, hx, hc]

theorem handleOrdersPlace_miss (rv : RiskModel) (st : ServerState) (now : Nat)
    (req : Json) (f : OrderFields) (c2 : Cache)
    (hrl : rateLimitedAt st now = false)
    (hx : extractOrderFields req = some f)
    (hc : st.cache.get now f.idempotencyKey = (none, c2)) :
    ((handleOrdersPlace rv st now req).branch = .rejected ∨
       (handleOrdersPlace rv st now req).branch = .placed) ∧
    (handleOrdersPlace rv st now req).state.cache =
      c2.put now f.idempotencyKey (placeOutcomeResult rv f now) 300000 ∧
    (handleOrdersPlace rv st now req).state.validateCalls = st.validateCalls + 1 ∧
    replyCore (handleOrdersPlace rv st now req).reply =
      resultCore (placeOutcomeResult rv f now) ∧
    (handleOrdersPlace rv st now req).state.sessionId = st.sessionId := by
  by_cases hv : rv.validate getAccountForSession getPositionsForAccount (orderOf f now)
  · simp [handleOrdersPlace, hrl, hx, hc, placeOutcomeResult, hv,
      replyCore_placeReplyJson]
  · simp [handleOrdersPlace, hrl, hx, hc, placeOutcomeResult, hv,
      replyCore_placeReplyJson]

theorem lastOrderTime_after_place (rv : RiskModel) (st : ServerState)
    (now : Nat) (req : Json) (hrl : rateLimitedAt st now = false) :
    (handleOrdersPlace rv st now req).state.session.getStr "lastOrderTime"
      = some (toString now) := by
  have hbase : ∀ sess : SessionStore,
      ((((sess.setField "lastOrderTime" (.str (toString now)) false).setField
        "userId" (.str "test-user") true).setField
        "userId2" (.str "test-user2") false).setField
        "rateLimit_orders.place" (.str (toString now)) false).getStr
        "lastOrderTime" = some (toString now) := by
    intro sess
    rw [getStr_setField_ne _ _ _ _ _ (by decide),
        getStr_setField_ne _ _ _ _ _ (by decide),
        getStr_setField_ne _ _ _ _ _ (by decide),
        getStr_setField_self]
  simp only [handleOrdersPlace, hrl, Bool.false_eq_true, if_false]
  cases hx : extractOrderFields req with
  | none => simpa using hbase st.session
  | some f =>
    rcases hc : st.cache.get now f.idempotencyKey with ⟨co, c2⟩
    cases co with
    | some r => simpa [hc] using hbase st.session
    | none =>
      by_cases hv : rv.validate getAccountForSession getPositionsForAccount (orderOf f now)
      · simp only [hc, hv, if_true]
        rw [getStr_setField_ne _ _ _ _ _ (by decide),
            getStr_setField_ne _ _ _ _ _ (by decide)]
        simpa using hbase st.session
      · simpa [hc, hv] using hbase st.session

/-! ## Claim C6 -/

/-- C6: the claim says `orders.status` replies with the `lastOrderId` /
`lastOrderStatus` most recently written by a successful `orders.place`
on the same session.  The code writes those session fields (lines
1130–1133) but reads them back through the `getSessionData` stub, which
returns `nullopt` for them, so the reply is always `"none"`: after a
successful LIMIT order placed at t = 2000 ms the session holds
`lastOrderId = "ORD_2000"`, yet the `orders.status` reply says
`"none"` for both fields. -/
theorem ordersStatus_stub_code_bug :
    (handleOrdersPlace rvAccept initialState 2000
      (Json.obj [])).state.session.getStr "lastOrderId" = some "ORD_2000" ∧
    (handleOrdersPlace rvAccept initialState 2000
      (Json.obj [])).reply.find "orderId" = some (.str "ORD_2000") ∧
    (handleOrdersStatus (handleOrdersPlace rvAccept initialState 2000
      (Json.obj [])).state.session).find "lastOrderId" = some (.str "none") ∧
    (handleOrdersStatus (handleOrdersPlace rvAccept initialState 2000
      (Json.obj [])).state.session).find "lastOrderStatus" = some (.str "none") :=
  ⟨rfl, rfl, rfl, rfl⟩

/-! ## Claim C9 -/

/-- C9 counterexample: a `history.query` with non-zero `fromTs = 500` ms
is rejected with `INVALID_PARAMS` (the code divides by 1000 *before*
the zero test), although the claim's rejection predicate says this
request is not rejected. -/
theorem historyQuery_claim_counterexample :
    handleHistoryQueryCheck (Json.obj [("symbol", .str "BTC-USD"),
        ("fromTs", .num 500), ("toTs", .num 2000000)]) =
      some (.invalidParams (createErrorResponse "INVALID_PARAMS"
        "Missing required parameters: symbol, fromTs, toTs")) ∧
    specHistoryRejects "BTC-USD" 500 2000000 = false :=
  ⟨rfl, rfl⟩

/-- C9 amended: `history.query` converts both millisecond timestamps to
seconds (truncating division by 1000) first, and rejects with
`INVALID_PARAMS` exactly when the symbol is empty or either *converted*
timestamp is zero (so timestamps under 1000 ms in magnitude are also
rejected); otherwise the converted values are passed to
`HistoryRepository::fetch`. -/
theorem historyQuery_reject_iff (request : Json) (symbol interval : String)
    (limq : Rat)
    (hs : request.valueStr "symbol" "" = some symbol)
    (hi : request.valueStr "interval" "M1" = some interval)
    (hl : request.valueNum "limit" 1000 = some limq) :
    handleHistoryQueryCheck request =
      some (historyCheckCore symbol (request.tsField "fromTs")
        (request.tsField "toTs") interval (ratTrunc limq)) ∧
    (∀ (sym : String) (fMs tMs : Int) (il : String) (lim : Int),
      (historyCheckCore sym fMs tMs il lim =
          .invalidParams (createErrorResponse "INVALID_PARAMS"
            "Missing required parameters: symbol, fromTs, toTs")
        ↔ (sym = "" ∨ fMs.tdiv 1000 = 0 ∨ tMs.tdiv 1000 = 0)) ∧
      ((sym ≠ "" ∧ fMs.tdiv 1000 ≠ 0 ∧ tMs.tdiv 1000 ≠ 0) →
        historyCheckCore sym fMs tMs il lim =
          .fetch sym (fMs.tdiv 1000) (tMs.tdiv 1000) il lim)) := by
  constructor
  · simp [handleHistoryQueryCheck, hs, hi, hl]
  · intro sym fMs tMs il lim
    constructor
    · constructor
      · intro h
        by_contra hcon
        push_neg at hcon
        simp [historyCheckCore, hcon.1, hcon.2.1, hcon.2.2] at h
      · intro h
        rcases h with h | h | h <;> simp [historyCheckCore, h]
    · intro h
      simp [historyCheckCore, h.1, h.2.1, h.2.2]

/-- C9 witness: a request with both timestamps at or above 1000 ms and a
non-empty symbol reaches `fetch` with the second values. -/
theorem historyQuery_reject_iff_witness :
    handleHistoryQueryCheck (Json.obj [("symbol", .str "BTC-USD"),
        ("fromTs", .num 1500), ("toTs", .num 2500)]) =
      some (historyCheckCore "BTC-USD" 1500 2500 "M1" 1000) ∧
    historyCheckCore "BTC-USD" 1500 2500 "M1" 1000 =
      .fetch "BTC-USD" 1 2 "M1" 1000 := by
  have h := historyQuery_reject_iff
    (Json.obj [("symbol", .str "BTC-USD"), ("fromTs", .num 1500),
      ("toTs", .num 2500)]) "BTC-USD" "M1" 1000 rfl rfl rfl
  exact ⟨h.1, (h.2 "BTC-USD" 1500 2500 "M1" 1000).2
    ⟨by decide, by decide, by decide⟩⟩

/-! ## Claim C2 -/

/-- C2 counterexample: `orders.history` matches the claim's protected
pattern `orders.*`, but it is absent from the `useForMulti` list, so its
handler runs (and replies) on a session with no `authenticated` field. -/
theorem authGate_claim_counterexample :
    specProtected "orders.history" = true ∧
    SessionStore.getStr ⟨[]⟩ "authenticated" = none ∧
    dispatch ⟨[]⟩ "orders.history" = ⟨true, true⟩ :=
  ⟨rfl, rfl, rfl⟩

theorem authGatePasses_iff (sess : SessionStore) :
    authGatePasses sess = true ↔ sess.getStr "authenticated" = some "true" := by
  unfold authGatePasses
  cases hs : sess.getStr "authenticated" with
  | none => simp
  | some v => simp

/-- C2 amended: for every method in the list actually passed to
`useForMulti` — the claim's protected set minus `orders.history` — the
handler runs only when the session field `authenticated` equals
`"true"`; otherwise dispatch halts before the handler and no reply
frame of any kind is sent. -/
theorem authGate_protected_list (sess : SessionStore) (m : String)
    (hm : m ∈ protectedMethods) :
    ((dispatch sess m).handlerRan = true →
      sess.getStr "authenticated" = some "true") ∧
    (sess.getStr "authenticated" ≠ some "true" →
      dispatch sess m = ⟨false, false⟩) := by
  have hr : m ∈ registeredMethods := by
    fin_cases hm <;> decide
  by_cases hg : authGatePasses sess = true
  · refine ⟨fun _ => (authGatePasses_iff sess).1 hg, fun hne => ?_⟩
    exact absurd ((authGatePasses_iff sess).1 hg) hne
  · have hd : dispatch sess m = ⟨false, false⟩ := by
      simp [dispatch, hr, hm, hg]
    refine ⟨fun hran => ?_, fun _ => hd⟩
    rw [hd] at hran
    simp at hran

/-- C2 witness: `orders.place` on a session without the field is
silently halted. -/
theorem authGate_protected_list_witness :
    "orders.place" ∈ protectedMethods ∧
    SessionStore.getStr ⟨[]⟩ "authenticated" ≠ some "true" ∧
    dispatch ⟨[]⟩ "orders.place" = ⟨false, false⟩ :=
  ⟨by decide, by decide,
   (authGate_protected_list ⟨[]⟩ "orders.place" (by decide)).2 (by decide)⟩

/-! ## Claim C4 -/

/-- C4: for every DATA frame enqueued by the QoS1 engine (config from
`initialize`: baseRetryMs = 100, maxRetry = 5, maxBackoffMs = 2000,
linear backoff), either the ACK arrives within
`Σ_{i<maxAttempts} backoff(i) = 1500` ms of the enqueue and the entry
is removed, or at exactly that deadline the pending entry is discarded,
the delivery-failed counter is incremented, and no frame is sent to the
client (every retransmission happened strictly before the deadline). -/
theorem qos_ack_or_delivery_failed (t : Nat) (ackAt : Option Nat) :
    backoffWindow = 1500 ∧
    ((∃ a, ackAt = some a ∧ a ≤ t + backoffWindow ∧
        (qosRun t ackAt).res = .acked a ∧
        (qosRun t ackAt).failCounterIncrements = 0) ∨
     ((qosRun t ackAt).res = .discarded (t + backoffWindow) ∧
      (qosRun t ackAt).failCounterIncrements = 1 ∧
      (qosRun t ackAt).framesSentToClientOnFailure = 0 ∧
      ∀ x ∈ (qosRun t ackAt).retransmits, x < t + backoffWindow)) := by
  have hw : backoffWindow = 1500 := by decide
  refine ⟨hw, ?_⟩
  rw [hw]
  cases ackAt with
  | none =>
    right
    rw [show qosRun t none =
      ⟨.discarded (t+1500), [t+100, t+300, t+600, t+1000], 1, 0⟩ from rfl]
    refine ⟨rfl, rfl, rfl, ?_⟩
    intro x hx
    simp only [List.mem_cons, List.not_mem_nil, or_false] at hx
    rcases hx with h | h | h | h <;> omega
  | some a =>
    by_cases h1 : a ≤ t + 100
    · have he : qosRun t (some a) = ⟨.acked a, [], 0, 0⟩ := by
        simp [qosRun, qosRunFrom, backoff, baseRetryMs, maxBackoffMs,
          maxAttempts, Nat.add_assoc, h1]
      exact Or.inl ⟨a, rfl, by omega, by rw [he], by rw [he]⟩
    · by_cases h2 : a ≤ t + 300
      · have he : qosRun t (some a) = ⟨.acked a, [t + 100], 0, 0⟩ := by
          simp [qosRun, qosRunFrom, backoff, baseRetryMs, maxBackoffMs,
            maxAttempts, Nat.add_assoc, h1, h2]
        exact Or.inl ⟨a, rfl, by omega, by rw [he], by rw [he]⟩
      · by_cases h3 : a ≤ t + 600
        · have he : qosRun t (some a) =
              ⟨.acked a, [t + 100, t + 300], 0, 0⟩ := by
            simp [qosRun, qosRunFrom, backoff, baseRetryMs, maxBackoffMs,
              maxAttempts, Nat.add_assoc, h1, h2, h3]
          exact Or.inl ⟨a, rfl, by omega, by rw [he], by rw [he]⟩
        · by_cases h4 : a ≤ t + 1000
          · have he : qosRun t (some a) =
                ⟨.acked a, [t + 100, t + 300, t + 600], 0, 0⟩ := by
              simp [qosRun, qosRunFrom, backoff, baseRetryMs, maxBackoffMs,
                maxAttempts, Nat.add_assoc, h1, h2, h3, h4]
            exact Or.inl ⟨a, rfl, by omega, by rw [he], by rw [he]⟩
          · by_cases h5 : a ≤ t + 1500
            · have he : qosRun t (some a) =
                  ⟨.acked a, [t + 100, t + 300, t + 600, t + 1000], 0, 0⟩ := by
                simp [qosRun, qosRunFrom, backoff, baseRetryMs, maxBackoffMs,
                  maxAttempts, Nat.add_assoc, h1, h2, h3, h4, h5]
              exact Or.inl ⟨a, rfl, by omega, by rw [he], by rw [he]⟩
            · have he : qosRun t (some a) = ⟨.discarded (t + 1500),
                  [t + 100, t + 300, t + 600, t + 1000], 1, 0⟩ := by
                simp [qosRun, qosRunFrom, backoff, baseRetryMs, maxBackoffMs,
                  maxAttempts, Nat.add_assoc, h1, h2, h3, h4, h5]
              right
              rw [he]
              refine ⟨rfl, rfl, rfl, ?_⟩
              intro x hx
              simp only [List.mem_cons, List.not_mem_nil, or_false] at hx
              rcases hx with h | h | h | h <;> omega

/-! ## Claim C10 -/

theorem placeReplyJson_orderMeta (r : OrderResult) (qos sid : String)
    (f : OrderFields) :
    (placeReplyJson r qos sid f).find "symbol" = some (.str f.symbol) ∧
    (placeReplyJson r qos sid f).find "side" = some (.str f.side) ∧
    (placeReplyJson r qos sid f).find "type" = some (.str f.type) ∧
    (placeReplyJson r qos sid f).find "price" = some (.num f.price) ∧
    (placeReplyJson r qos sid f).find "quantity" = some (.num f.qty) ∧
    (placeReplyJson r qos sid f).find "idempotencyKey" =
      some (.str f.idempotencyKey) :=
  ⟨rfl, rfl, rfl, rfl, rfl, rfl⟩

theorem handleOrdersPlace_miss_reply (rv : RiskModel) (st : ServerState)
    (now : Nat) (req : Json) (f : OrderFields) (c2 : Cache)
    (hrl : rateLimitedAt st now = false)
    (hx : extractOrderFields req = some f)
    (hc : st.cache.get now f.idempotencyKey = (none, c2)) :
    (handleOrdersPlace rv st now req).reply =
      placeReplyJson (placeOutcomeResult rv f now)
        (if rv.validate getAccountForSession getPositionsForAccount (orderOf f now)
         then "AtLeastOnce - reliable delivery"
         else "AtLeastOnce - risk rejected")
        st.sessionId f := by
  by_cases hv : rv.validate getAccountForSession getPositionsForAccount (orderOf f now)
  · simp [handleOrdersPlace, hrl, hx, hc, placeOutcomeResult, hv]
  · simp [handleOrdersPlace, hrl, hx, hc, placeOutcomeResult, hv]

/-- C10: `parseMsgPackPayload` is total — every exception of the msgpack
unpacker or of the conversion is caught and mapped to the empty JSON
object — and consequently an `orders.place` whose payload bytes do not
decode is not dropped: field extraction yields the documented defaults
(`idempotencyKey "DEFAULT_KEY"`, `symbol "BTC-USD"`, `side "BUY"`,
`type "LIMIT"`, `qty 1`, `price 50000`), the request is processed
(cached / rejected / placed, never the parse-error exit), and the reply
carries the default order metadata. -/
theorem parseMsgPack_total_default_order
    (unpack : List Nat → Option MsgVal) (req : List Nat)
    (h : unpack req = none) :
    parseMsgPackPayload unpack req = .obj [] ∧
    extractOrderFields (parseMsgPackPayload unpack req) =
      some ⟨"DEFAULT_KEY", "BTC-USD", "BUY", "LIMIT", 1, 50000⟩ ∧
    (∀ (rv : RiskModel) (st : ServerState) (now : Nat),
      rateLimitedAt st now = false →
      ((handleOrdersPlace rv st now (parseMsgPackPayload unpack req)).branch = .cached ∨
       (handleOrdersPlace rv st now (parseMsgPackPayload unpack req)).branch = .rejected ∨
       (handleOrdersPlace rv st now (parseMsgPackPayload unpack req)).branch = .placed) ∧
      (handleOrdersPlace rv st now (parseMsgPackPayload unpack req)).reply.find
        "symbol" = some (.str "BTC-USD") ∧
      (handleOrdersPlace rv st now (parseMsgPackPayload unpack req)).reply.find
        "side" = some (.str "BUY") ∧
      (handleOrdersPlace rv st now (parseMsgPackPayload unpack req)).reply.find
        "type" = some (.str "LIMIT") ∧
      (handleOrdersPlace rv st now (parseMsgPackPayload unpack req)).reply.find
        "quantity" = some (.num 1) ∧
      (handleOrdersPlace rv st now (parseMsgPackPayload unpack req)).reply.find
        "price" = some (.num 50000) ∧
      (handleOrdersPlace rv st now (parseMsgPackPayload unpack req)).reply.find
        "idempotencyKey" = some (.str "DEFAULT_KEY")) := by
  have hp : parseMsgPackPayload unpack req = .obj [] := by
    simp [parseMsgPackPayload, h]
  have hx : extractOrderFields (parseMsgPackPayload unpack req) =
      some ⟨"DEFAULT_KEY", "BTC-USD", "BUY", "LIMIT", 1, 50000⟩ := by
    rw [hp]; rfl
  refine ⟨hp, hx, ?_⟩
  intro rv st now hrl
  rcases hcg : st.cache.get now "DEFAULT_KEY" with ⟨co, c2⟩
  cases co with
  | some r =>
    have hh := handleOrdersPlace_hit rv st now _ _ r c2 hrl hx hcg
    refine ⟨Or.inl hh.1, ?_, ?_, ?_, ?_, ?_, ?_⟩ <;> rw [hh.2.1] <;> rfl
  | none =>
    have hm := handleOrdersPlace_miss rv st now _ _ c2 hrl hx hcg
    have hr := handleOrdersPlace_miss_reply rv st now _ _ c2 hrl hx hcg
    refine ⟨Or.inr hm.1, ?_, ?_, ?_, ?_, ?_, ?_⟩ <;> rw [hr] <;> rfl

/-- C10 witness: a concretely failing unpack on concrete state. -/
theorem parseMsgPack_total_default_order_witness :
    parseMsgPackPayload (fun _ => none) [0] = Json.obj [] ∧
    (handleOrdersPlace rvAccept initialState 7000
      (parseMsgPackPayload (fun _ => none) [0])).branch = .placed ∧
    (handleOrdersPlace rvAccept initialState 7000
      (parseMsgPackPayload (fun _ => none) [0])).reply.find "symbol" =
      some (.str "BTC-USD") := by
  have h := parseMsgPack_total_default_order (fun _ => none) [0] rfl
  exact ⟨h.1, by decide, (h.2.2 rvAccept initialState 7000 rfl).2.1⟩

/-! ## Claim C3 -/

/-- C3: a second `orders.place` arriving on the same session less than
1000 ms (`int64_t` difference) after a previous accepted (non-rate-
limited) `orders.place` is answered `{error: {code:
RATE_LIMIT_EXCEEDED}}` and leaves the state untouched — in particular
it reaches neither `RiskValidator::validate` nor the idempotency cache
— regardless of the request payload (hence of its idempotencyKey). -/
theorem ordersPlace_rate_limit (rv : RiskModel) (st0 : ServerState)
    (t0 t1 : Nat) (req1 req2 : Json)
    (h1 : (handleOrdersPlace rv st0 t0 req1).branch ≠ .rateLimited)
    (hstoll : stollModel (toString t0) = some (t0 : Int))
    (ht : (t1 : Int) - t0 < 1000) :
    handleOrdersPlace rv (handleOrdersPlace rv st0 t0 req1).state t1 req2 =
      ⟨(handleOrdersPlace rv st0 t0 req1).state,
       createErrorResponse "RATE_LIMIT_EXCEEDED" "Too many requests",
       .rateLimited⟩ := by
  have hrl0 := not_rateLimited_of_branch rv st0 t0 req1 h1
  have hlot := lastOrderTime_after_place rv st0 t0 req1 hrl0
  apply handleOrdersPlace_limited
  unfold rateLimitedAt
  rw [hlot]
  simp [hstoll, ht]

/-- C3 witness: two requests 500 ms apart; the second carries a
different idempotencyKey and is still rejected without side effects. -/
theorem ordersPlace_rate_limit_witness :
    (handleOrdersPlace rvAccept initialState 1000 (Json.obj [])).branch
      ≠ .rateLimited ∧
    ((1500 : Int) - (1000 : Nat) < 1000) ∧
    handleOrdersPlace rvAccept
      (handleOrdersPlace rvAccept initialState 1000 (Json.obj [])).state 1500
      (Json.obj [("idempotencyKey", .str "OTHER_KEY")]) =
      ⟨(handleOrdersPlace rvAccept initialState 1000 (Json.obj [])).state,
       createErrorResponse "RATE_LIMIT_EXCEEDED" "Too many requests",
       .rateLimited⟩ :=
  ⟨by decide, by decide,
   ordersPlace_rate_limit rvAccept initialState 1000 1500 (Json.obj [])
     (Json.obj [("idempotencyKey", .str "OTHER_KEY")])
     (by decide) (by decide) (by decide)⟩

/-! ## Claim C8 -/

theorem cachePut_lookup_self (c : Cache) (now : Nat) (k : String)
    (r : OrderResult) (ttl : Nat) :
    (c.put now k r ttl).entries.lookup k = some ⟨r, now + ttl⟩ := by
  simp [Cache.put, List.lookup]

/-- C8: for an `orders.place` that is neither rate-limited nor served
from the cache, the computed outcome — status `REJECTED` with
`reason = validator.error()` when `RiskValidator::validate` returns
false, status `FILLED` when it returns true and the request's type is
`"MARKET"`, `ACK` otherwise — is stored in the idempotency cache under
the request's idempotencyKey (TTL 300000 ms) and is what the reply's
`{status, orderId, echoKey, reason}` fields carry. -/
theorem ordersPlace_validator_outcomes (rv : RiskModel) (st : ServerState)
    (now : Nat) (req : Json) (f : OrderFields) (c2 : Cache)
    (hrl : rateLimitedAt st now = false)
    (hx : extractOrderFields req = some f)
    (hc : st.cache.get now f.idempotencyKey = (none, c2)) :
    (rv.validate getAccountForSession getPositionsForAccount (orderOf f now) = false →
      placeOutcomeResult rv f now =
        ⟨.REJECTED, "ORD_" ++ toString now, f.idempotencyKey,
         rv.errorOf getAccountForSession getPositionsForAccount (orderOf f now)⟩) ∧
    (rv.validate getAccountForSession getPositionsForAccount (orderOf f now) = true →
      placeOutcomeResult rv f now =
        ⟨if f.type = "MARKET" then .FILLED else .ACK,
         "ORD_" ++ toString now, f.idempotencyKey, ""⟩) ∧
    (handleOrdersPlace rv st now req).state.cache.entries.lookup
      f.idempotencyKey = some ⟨placeOutcomeResult rv f now, now + 300000⟩ ∧
    replyCore (handleOrdersPlace rv st now req).reply =
      resultCore (placeOutcomeResult rv f now) := by
  have hm := handleOrdersPlace_miss rv st now req f c2 hrl hx hc
  refine ⟨?_, ?_, ?_, hm.2.2.2.1⟩
  · intro hv
    simp only [placeOutcomeResult]
    rw [hv]
    simp [orderOf]
  · intro hv
    simp only [placeOutcomeResult]
    rw [hv]
    by_cases hty : f.type = "MARKET" <;> simp [orderOf, hty]
  · rw [hm.2.1, cachePut_lookup_self]

/-- C8 witness: the always-rejecting validator at a concrete request:
the reply carries `REJECTED` and the validator's error string, and the
same outcome sits in the cache with a 300 000 ms TTL. -/
theorem ordersPlace_validator_outcomes_witness :
    replyCore (handleOrdersPlace rvReject initialState 3000
      (Json.obj [("idempotencyKey", .str "K8")])).reply =
      resultCore ⟨.REJECTED, "ORD_3000", "K8", "Insufficient balance"⟩ ∧
    (handleOrdersPlace rvReject initialState 3000
      (Json.obj [("idempotencyKey", .str "K8")])).state.cache.entries.lookup
      "K8" = some ⟨⟨.REJECTED, "ORD_3000", "K8", "Insufficient balance"⟩, 303000⟩ := by
  have h := ordersPlace_validator_outcomes rvReject initialState 3000
    (Json.obj [("idempotencyKey", .str "K8")])
    ⟨"K8", "BTC-USD", "BUY", "LIMIT", 1, 50000⟩ ⟨[]⟩ rfl rfl rfl
  exact ⟨h.2.2.2, h.2.2.1⟩

/-! ## Claim C7 -/

/-- C7 counterexample: a sessionToken of exactly 32 `'z'` characters
gives `std::stoi(byteString, nullptr, 16)` nothing to parse (no digit,
sign or whitespace), so it throws inside the parsing loop; the outer
catch turns that into a rejected handshake (`extract` returns nullopt)
— the claim says a malformed token never causes rejection and a fresh
token is minted instead. -/
theorem handshake_claim_counterexample :
    ("zzzzzzzzzzzzzzzzzzzzzzzzzzzzzzzz" : String).length = 32 ∧
    extractIdentity (fun _ => []) (fun _ => 0) "secret" 1000
      ⟨"trader-1", "42", "trader", "zzzzzzzzzzzzzzzzzzzzzzzzzzzzzzzz", ""⟩
      = none :=
  ⟨rfl, rfl⟩

/-- C7 amended: the extractor mints a fresh 16-byte token — the first
16 bytes of SHA-256 over `userId:deviceId:nowMillis:jwtSecret` — exactly
when the sessionToken parameter is absent or its *length* differs from
32 (given a resolvable userId).  A 32-character token is fed in
2-character chunks to `std::stoi(chunk, nullptr, 16)` and the resulting
values, taken modulo 256 by the `char`/`uint8_t` round-trip, become the
identity bytes — so a well-formed 32-hex-character token is parsed into
the 16 identity bytes, and `stoi`'s sign/whitespace acceptance lets
some non-hex tokens through as well; but when a chunk gives `std::stoi`
no digit to parse, the exception rejects the connection. -/
theorem handshake_sessionToken_handling (sha256 : String → List Nat)
    (hasher : String → Nat) (secret : String) (nowMs : Nat) (p : ConnParams)
    (hu : resolvedUserId p ≠ "") :
    ((p.sessionToken = "" ∨ p.sessionToken.length ≠ 32) →
      extractIdentity sha256 hasher secret nowMs p =
        some ⟨resolvedUserId p, resolvedDeviceInt hasher p,
          (sha256 (resolvedUserId p ++ ":" ++ resolvedDeviceStr p ++ ":" ++
            toString nowMs ++ ":" ++ secret)).take 16⟩) ∧
    (∀ bytes, p.sessionToken.length = 32 →
      parseHexPairs p.sessionToken.toList = some bytes →
      extractIdentity sha256 hasher secret nowMs p =
        some ⟨resolvedUserId p, resolvedDeviceInt hasher p, bytes.take 16⟩) ∧
    (p.sessionToken.length = 32 →
      parseHexPairs p.sessionToken.toList = none →
      extractIdentity sha256 hasher secret nowMs p = none) := by
  refine ⟨fun hmint => ?_, fun bytes hlen hparse => ?_, fun hlen hparse => ?_⟩
  · simp [extractIdentity, hu, hmint, generateSessionToken]
  · have hne : ¬ (p.sessionToken = "" ∨ p.sessionToken.length ≠ 32) := by
      push_neg
      refine ⟨fun he => ?_, hlen⟩
      rw [he] at hlen
      simp at hlen
    simp only [String.toList] at hparse
    simp [extractIdentity, hu, hne, hparse]
  · have hne : ¬ (p.sessionToken = "" ∨ p.sessionToken.length ≠ 32) := by
      push_neg
      refine ⟨fun he => ?_, hlen⟩
      rw [he] at hlen
      simp at hlen
    simp only [String.toList] at hparse
    simp [extractIdentity, hu, hne, hparse]

/-- C7 witness: with the token absent a fresh token is minted from the
SHA-256 oracle; with a well-formed 32-hex-character token the 16 parsed
bytes become the identity's sessionToken; and the 32-character token
`"-1"` repeated 16 times — not hex, but sign-prefixed chunks `std::stoi`
accepts — is parsed, not rejected: each chunk yields −1, i.e. byte 0xFF
after the `char`/`uint8_t` round-trip. -/
theorem handshake_sessionToken_handling_witness :
    extractIdentity (fun _ => List.range 32) (fun _ => 7) "secret" 1000
      ⟨"trader-1", "42", "trader", "", ""⟩ =
      some ⟨"trader-user-123", 42, (List.range 32).take 16⟩ ∧
    extractIdentity (fun _ => List.range 32) (fun _ => 7) "secret" 1000
      ⟨"trader-1", "42", "trader", "00112233445566778899aabbccddeeff", ""⟩ =
      some ⟨"trader-user-123", 42,
        [0x00, 0x11, 0x22, 0x33, 0x44, 0x55, 0x66, 0x77,
         0x88, 0x99, 0xaa, 0xbb, 0xcc, 0xdd, 0xee, 0xff]⟩ ∧
    extractIdentity (fun _ => List.range 32) (fun _ => 7) "secret" 1000
      ⟨"trader-1", "42", "trader", "-1-1-1-1-1-1-1-1-1-1-1-1-1-1-1-1", ""⟩ =
      some ⟨"trader-user-123", 42,
        [255, 255, 255, 255, 255, 255, 255, 255,
         255, 255, 255, 255, 255, 255, 255, 255]⟩ :=
  ⟨(handshake_sessionToken_handling (fun _ => List.range 32) (fun _ => 7)
      "secret" 1000 ⟨"trader-1", "42", "trader", "", ""⟩ (by decide)).1
      (Or.inl rfl),
   (handshake_sessionToken_handling (fun _ => List.range 32) (fun _ => 7)
      "secret" 1000
      ⟨"trader-1", "42", "trader", "00112233445566778899aabbccddeeff", ""⟩
      (by decide)).2.1
      [0x00, 0x11, 0x22, 0x33, 0x44, 0x55, 0x66, 0x77,
       0x88, 0x99, 0xaa, 0xbb, 0xcc, 0xdd, 0xee, 0xff] rfl rfl,
   (handshake_sessionToken_handling (fun _ => List.range 32) (fun _ => 7)
      "secret" 1000
      ⟨"trader-1", "42", "trader", "-1-1-1-1-1-1-1-1-1-1-1-1-1-1-1-1", ""⟩
      (by decide)).2.1
      [255, 255, 255, 255, 255, 255, 255, 255,
       255, 255, 255, 255, 255, 255, 255, 255] rfl rfl⟩

/-! ## Claim C5 -/

/-- C5 counterexample: `hello` stores `authenticated` (and `userId`,
`roles`) with `persistAcrossReconnect = false` (lines 692–697), and
`market.subscribe` stores `subscribedRooms` with `false` (line 1485),
so none of them survive a resume — contradicting the claim that they
are stored with the persistent flag. -/
theorem sessionFields_persist_counterexample :
    (handleHello ⟨[]⟩ "s1" (Json.obj [("token", .str "trader"),
      ("clientId", .str "c1")])).session.getStr "authenticated"
      = some "true" ∧
    (handleHello ⟨[]⟩ "s1" (Json.obj [("token", .str "trader"),
      ("clientId", .str "c1")])).session.resume.getField? "authenticated"
      = none ∧
    (handleHello ⟨[]⟩ "s1" (Json.obj [("token", .str "trader"),
      ("clientId", .str "c1")])).session.resume.getField? "userId" = none ∧
    (handleHello ⟨[]⟩ "s1" (Json.obj [("token", .str "trader"),
      ("clientId", .str "c1")])).session.resume.getField? "roles" = none ∧
    (handleMarketDataSubscribe ⟨[]⟩ [] "s1" (Json.obj [("symbols",
      .arr [.str "BTC-USD"])])).session.getField? "subscribedRooms" =
      some ⟨.strList ["market:BTC-USD"], false⟩ ∧
    (handleMarketDataSubscribe ⟨[]⟩ [] "s1" (Json.obj [("symbols",
      .arr [.str "BTC-USD"])])).session.resume.getField? "subscribedRooms"
      = none :=
  ⟨rfl, rfl, rfl, rfl, rfl, rfl⟩

/-- C5 amended: every field the `hello` handler writes (`userId`,
`roles`, `authenticated`, …) and the `subscribedRooms` field written by
`market.subscribe` are stored with `persistAcrossReconnect = false`, so
a resume within the TTL clears them all, exactly like the rate-limit
timestamps and `lastOrderId`/`lastOrderStatus`; nothing the claim lists
as persistent survives (the only persistent write in the handler code
is the stray debug `userId = "test-user"` in `orders.place`). -/
theorem sessionFields_ephemeral (sess : SessionStore) (sid : String)
    (req : Json) (tok cid dev : String)
    (hwf : sess.wf)
    (ht : req.valueStr "token" "" = some tok) (htne : tok ≠ "")
    (hc : req.valueStr "clientId" "" = some cid) (hcne : cid ≠ "")
    (hd : req.valueStr "deviceId" "" = some dev) :
    (handleHello sess sid req).session.getField? "authenticated" =
      some ⟨.str "true", false⟩ ∧
    (handleHello sess sid req).session.resume.getField? "userId" = none ∧
    (handleHello sess sid req).session.resume.getField? "roles" = none ∧
    (handleHello sess sid req).session.resume.getField? "authenticated"
      = none ∧
    (∀ (rooms : List (String × List String)) (sid2 : String)
      (payload : Json) (sess2 : SessionStore),
      ((payload.find "symbols").getD (.arr [])).isEmptyC = false →
      sess2.wf →
      (handleMarketDataSubscribe sess2 rooms sid2
        payload).session.resume.getField? "subscribedRooms" = none) := by
  have hsess : (handleHello sess sid req).session =
      ((((sess.setField "userId" (.str (resolveHelloUser tok).1)
          false).setField
        "clientId" (.str cid) false).setField
        "deviceId" (.str dev) false).setField
        "roles" (.strList (resolveHelloUser tok).2) false).setField
        "authenticated" (.str "true") false := by
    simp [handleHello, ht, hc, hd, htne, hcne]
  have hwf' : ((handleHello sess sid req).session).wf := by
    rw [hsess]
    exact wf_setField _ _ _ _ (wf_setField _ _ _ _ (wf_setField _ _ _ _
      (wf_setField _ _ _ _ (wf_setField _ _ _ _ hwf))))
  refine ⟨?_, ?_, ?_, ?_, ?_⟩
  · rw [hsess]; exact getField?_setField_self _ _ _ _
  · refine resume_getField?_of_ephemeral _ _ hwf'
      ⟨.str (resolveHelloUser tok).1, false⟩ ?_ rfl
    rw [hsess,
      getField?_setField_ne _ _ _ _ _ (by decide),
      getField?_setField_ne _ _ _ _ _ (by decide),
      getField?_setField_ne _ _ _ _ _ (by decide),
      getField?_setField_ne _ _ _ _ _ (by decide)]
    exact getField?_setField_self _ _ _ _
  · refine resume_getField?_of_ephemeral _ _ hwf'
      ⟨.strList (resolveHelloUser tok).2, false⟩ ?_ rfl
    rw [hsess, getField?_setField_ne _ _ _ _ _ (by decide)]
    exact getField?_setField_self _ _ _ _
  · refine resume_getField?_of_ephemeral _ _ hwf'
      ⟨.str "true", false⟩ ?_ rfl
    rw [hsess]
    exact getField?_setField_self _ _ _ _
  · intro rooms sid2 payload sess2 hempty hwf2
    have hs2 : (handleMarketDataSubscribe sess2 rooms sid2 payload).session =
        sess2.setField "subscribedRooms"
          (.strList (((payload.find "symbols").getD
            (.arr [])).iterElems.filterMap
              (fun j => match j with
                | .str s => some (getMarketDataRoom s)
                | _ => none))) false := by
      simp [handleMarketDataSubscribe, hempty]
    rw [hs2]
    exact resume_getField?_of_ephemeral _ _ (wf_setField _ _ _ _ hwf2) _
      (getField?_setField_self _ _ _ _) rfl

/-- C5 witness: the amended theorem at the concrete hello request of
the counterexample. -/
theorem sessionFields_ephemeral_witness :
    ("trader" : String) ≠ "" ∧ ("c1" : String) ≠ "" ∧
    (handleHello ⟨[]⟩ "s1" (Json.obj [("token", .str "trader"),
      ("clientId", .str "c1")])).session.resume.getField? "authenticated"
      = none :=
  ⟨by decide, by decide,
   (sessionFields_ephemeral ⟨[]⟩ "s1"
     (Json.obj [("token", .str "trader"), ("clientId", .str "c1")])
     "trader" "c1" "" wf_empty rfl (by decide) rfl (by decide)
     rfl).2.2.2.1⟩

/-! ## Claim C1 -/

theorem cacheGet_of_lookup (c : Cache) (now : Nat) (k : String)
    (R : OrderResult) (exp : Nat)
    (hl : c.entries.lookup k = some ⟨R, exp⟩) (hle : now ≤ exp) :
    c.get now k = (some R, c) := by
  simp [Cache.get, hl, CacheEntry.isExpired, show ¬ (exp < now) from not_lt.2 hle]

/-- Every further duplicate is served from the cached entry: the
validate counter does not move and all replies carry the entry's
`{status, orderId, echoKey, reason}`. -/
theorem runPlace_cached (rv : RiskModel) (req : Json) (f : OrderFields)
    (R : OrderResult) (exp : Nat)
    (hx : extractOrderFields req = some f) :
    ∀ (ts : List Nat) (st : ServerState),
    st.cache.entries.lookup f.idempotencyKey = some ⟨R, exp⟩ →
    (∀ t ∈ ts, t ≤ exp) →
    (∀ b ∈ (runPlace rv st (ts.map (fun t => (t, req)))).2,
      b.2 ≠ .rateLimited) →
    (runPlace rv st (ts.map (fun t => (t, req)))).1.validateCalls =
      st.validateCalls ∧
    (∀ o ∈ (runPlace rv st (ts.map (fun t => (t, req)))).2,
      replyCore o.1 = resultCore R) := by
  intro ts
  induction ts with
  | nil =>
    intro st _ _ _
    refine ⟨rfl, ?_⟩
    intro o ho
    simp [runPlace] at ho
  | cons t ts ih =>
    intro st hl hts hnl
    simp only [List.map_cons, runPlace] at hnl ⊢
    have hb := hnl _ (List.mem_cons_self _ _)
    have hrl : rateLimitedAt st t = false :=
      not_rateLimited_of_branch rv st t req hb
    have hcg : st.cache.get t f.idempotencyKey = (some R, st.cache) :=
      cacheGet_of_lookup _ _ _ _ _ hl (hts t (List.mem_cons_self _ _))
    have hh := handleOrdersPlace_hit rv st t req f R st.cache hrl hx hcg
    have hl' : (handleOrdersPlace rv st t req).state.cache.entries.lookup
        f.idempotencyKey = some ⟨R, exp⟩ := by
      rw [hh.2.2.1]; exact hl
    have htail := ih (handleOrdersPlace rv st t req).state hl'
      (fun t' ht' => hts t' (List.mem_cons_of_mem _ ht'))
      (fun b hb' => hnl b (List.mem_cons_of_mem _ hb'))
    refine ⟨by rw [htail.1, hh.2.2.2.1], ?_⟩
    intro o ho
    rcases List.mem_cons.1 ho with ho | ho
    · rw [ho]
      show replyCore (handleOrdersPlace rv st t req).reply = resultCore R
      rw [hh.2.1]
      exact replyCore_placeReplyJson R _ _ f
    · exact htail.2 o ho

/-- C1: for a sequence of duplicate `orders.place` requests carrying
idempotencyKey `k` (each accepted, i.e. not rate-limited, and each
later one arriving before the cached outcome's TTL `t0 + 300000 ms`
expires, the key not cached beforehand), exactly one request causes a
call to `RiskValidator::validate` — the counter grows by exactly 1 over
the whole run — and every reply, first included, is equal on the fields
`{status, orderId, echoKey, reason}` (all carry the single computed
outcome). -/
theorem ordersPlace_at_most_once_effect (rv : RiskModel) (st0 : ServerState)
    (req : Json) (f : OrderFields) (t0 : Nat) (ts : List Nat) (c2 : Cache)
    (hx : extractOrderFields req = some f)
    (hm : st0.cache.get t0 f.idempotencyKey = (none, c2))
    (hts : ∀ t ∈ ts, t ≤ t0 + 300000)
    (hnl : ∀ b ∈ (runPlace rv st0 ((t0, req) :: ts.map (fun t => (t, req)))).2,
      b.2 ≠ .rateLimited) :
    (runPlace rv st0 ((t0, req) :: ts.map (fun t => (t, req)))).1.validateCalls
      = st0.validateCalls + 1 ∧
    (∀ o ∈ (runPlace rv st0 ((t0, req) :: ts.map (fun t => (t, req)))).2,
      replyCore o.1 = resultCore (placeOutcomeResult rv f t0)) := by
  simp only [runPlace] at hnl ⊢
  have hb := hnl _ (List.mem_cons_self _ _)
  have hrl : rateLimitedAt st0 t0 = false :=
    not_rateLimited_of_branch rv st0 t0 req hb
  have hmiss := handleOrdersPlace_miss rv st0 t0 req f c2 hrl hx hm
  have hl1 : (handleOrdersPlace rv st0 t0 req).state.cache.entries.lookup
      f.idempotencyKey = some ⟨placeOutcomeResult rv f t0, t0 + 300000⟩ := by
    rw [hmiss.2.1]; exact cachePut_lookup_self _ _ _ _ _
  have htail := runPlace_cached rv req f (placeOutcomeResult rv f t0)
    (t0 + 300000) hx ts (handleOrdersPlace rv st0 t0 req).state hl1 hts
    (fun b hb' => hnl b (List.mem_cons_of_mem _ hb'))
  refine ⟨by rw [htail.1, hmiss.2.2.1], ?_⟩
  intro o ho
  rcases List.mem_cons.1 ho with ho | ho
  · rw [ho]
    exact hmiss.2.2.2.1
  · exact htail.2 o ho

/-- The duplicate request of the C1 witness. -/
def reqK1 : Json := Json.obj [("idempotencyKey", .str "K1")]

/-- C1 witness: three copies of the same request at 1000, 3000 and
5000 ms; none is rate-limited, and over the run the validate counter
grows from 0 to exactly 1. -/
theorem ordersPlace_at_most_once_effect_witness :
    (∀ t ∈ [3000, 5000], t ≤ 1000 + 300000) ∧
    (∀ b ∈ (runPlace rvAccept initialState
        ((1000, reqK1) :: [3000, 5000].map (fun t => (t, reqK1)))).2,
      b.2 ≠ PlaceBranch.rateLimited) ∧
    (runPlace rvAccept initialState
      ((1000, reqK1) :: [3000, 5000].map (fun t => (t, reqK1)))).1.validateCalls
      = 0 + 1 :=
  ⟨by decide, by decide,
   (ordersPlace_at_most_once_effect rvAccept initialState reqK1
     ⟨"K1", "BTC-USD", "BUY", "LIMIT", 1, 50000⟩ 1000 [3000, 5000] ⟨[]⟩
     rfl rfl (by decide) (by decide)).1⟩

end Trading
